import Mathlib

/-!
Verification of the extraction pipeline of `app.py` (pd-data-analyst).

The development shallowly embeds the pure core of the program: URL
canonicalization (`extract_url`, `normalize_url`, `extract_goods_id`,
`canonicalize_pdd_goods_url`), the media classifier
(`classify_media_urls`, `filter_valid_video_urls`,
`extract_urls_from_text`, `extract_media_from_json_obj`), the static
HTML extraction (`extract_from_html`, `parse_static` over a fetch
oracle standing for the HTTP layer), the dynamic-extraction
post-processing and its network listener (`on_response`,
`parse_dynamic_with_playwright` over a capture record standing for the
browser), result fusion (`score_info`, `merge_info`) and the
orchestrator (`parse_product_info`).

External effects (HTTP, the browser, HTML parsing by BeautifulSoup,
JSON parsing by json.loads) enter as oracle inputs: a fetch function
returning either an error string or a parsed page, and a capture record
holding what the browser delivered to the listeners.  Everything the
program computes from those inputs is embedded as executable Lean
functions that mirror the Python line by line.

Python regular expressions used by the source are embedded as explicit
scanning functions over character lists; each definition records the
regex it implements.
-/

/-! ## Basic string utilities -/

/-- Python whitespace for `str.strip` and the regex class `\s`
(ASCII part: space, tab, newline, carriage return, vertical tab, form feed). -/
def isPySpace (c : Char) : Bool :=
  c = ' ' || c = '\t' || c = '\n' || c = '\r' || c = '\x0b' || c = '\x0c'

/-- Rebuild a string from a character list. -/
def ofChars (l : List Char) : String := String.mk l

/-- Python `str.strip()`: drop leading and trailing whitespace. -/
def pyStrip (s : String) : String :=
  ofChars (((s.data.dropWhile isPySpace).reverse.dropWhile isPySpace).reverse)

/-- Python `str.strip(chars)`: drop the given characters from both ends. -/
def pyStripBoth (cs : List Char) (s : String) : String :=
  ofChars (((s.data.dropWhile (fun c => cs.contains c)).reverse.dropWhile
    (fun c => cs.contains c)).reverse)

/-- Python `str.lower()` (ASCII slice, enough for the keyword sets used). -/
def lowerStr (s : String) : String := ofChars (s.data.map Char.toLower)

/-- Python `sub in s` on character lists: `pat` occurs contiguously in `l`. -/
def listHasSub (l pat : List Char) : Bool :=
  match l with
  | [] => pat.isEmpty
  | _ :: rest => pat.isPrefixOf l || listHasSub rest pat

/-- Python `sub in s` for strings. -/
def containsSub (s sub : String) : Bool := listHasSub s.data sub.data

/-- Python `s.startswith(p)`. -/
def strStarts (s p : String) : Bool := p.data.isPrefixOf s.data

/-- Python `s.endswith(p)` (used to embed the `$` alternative of regexes). -/
def strEnds (s p : String) : Bool := p.data.isSuffixOf s.data

/-- First truthy value of a Python `a or b or ... or ""` chain over strings. -/
def firstNonEmpty : List String → String
  | [] => ("")
  | x :: rest => if x ≠ ("") then x else firstNonEmpty rest

/-- Split at the first occurrence of `c`: `(before, some after)` when `c`
occurs, `(l, none)` otherwise. -/
def splitAtFirstL (c : Char) : List Char → List Char × Option (List Char)
  | [] => ([], none)
  | a :: rest =>
    if a = c then ([], some rest)
    else
      let r := splitAtFirstL c rest
      (a :: r.1, r.2)

/-- Python `s.split(c)` via repeated first-splits; the fuel argument is the
length of the list, which always suffices because each split consumes at
least the separator. -/
def splitAllFuel (c : Char) : Nat → List Char → List (List Char)
  | 0, l => [l]
  | n + 1, l =>
    match splitAtFirstL c l with
    | (p, none) => [p]
    | (p, some rest) => p :: splitAllFuel c n rest

/-- Python `s.split(c)` (all pieces, empty pieces kept). -/
def splitAllL (c : Char) (l : List Char) : List (List Char) :=
  splitAllFuel c l.length l

/-- Python `s.replace(pat, rep)`: left-to-right, non-overlapping; fuel is the
input length, which suffices because every step consumes at least one
character. -/
def replaceFuel (pat rep : List Char) : Nat → List Char → List Char
  | 0, l => l
  | _ + 1, [] => []
  | n + 1, a :: rest =>
    if !pat.isEmpty && pat.isPrefixOf (a :: rest) then
      rep ++ replaceFuel pat rep n ((a :: rest).drop pat.length)
    else
      a :: replaceFuel pat rep n rest

/-- Python `s.replace(pat, rep)` on character lists. -/
def replaceSubAll (l pat rep : List Char) : List Char := replaceFuel pat rep l.length l

/-! ## urllib.parse: urlparse / parse_qs / unquote_plus (the slice used) -/

/-- The result record of `urllib.parse.urlparse` (the fields the program
reads: scheme, netloc, path, query; fragment kept for completeness). -/
structure UrlParts where
  scheme : String
  netloc : String
  path : String
  query : String
  fragment : String
deriving DecidableEq

/-- CPython scheme characters: letters, digits, `+`, `-`, `.`. -/
def schemeChar (c : Char) : Bool := c.isAlpha || c.isDigit || c = '+' || c = '-' || c = '.'

/-- Characters that end the netloc of a URL: `/`, `?`, `#`. -/
def netlocEnd (c : Char) : Bool := c = '/' || c = '?' || c = '#'

/-- CPython urlsplit removes tab, CR and LF anywhere in the URL before
splitting. -/
def stripUnsafe (l : List Char) : List Char :=
  l.filter (fun c => !(c = '\t' || c = '\r' || c = '\n'))

/-- CPython scheme split: at the first `:` when the prefix starts with a
letter and holds only scheme characters; the scheme is lowercased. Returns
the scheme and the remainder. -/
def splitScheme (l : List Char) : String × List Char :=
  match splitAtFirstL ':' l with
  | (pre, some post) =>
    match pre with
    | [] => ((""), l)
    | c0 :: _ =>
      if c0.isAlpha && pre.all schemeChar then (ofChars (pre.map Char.toLower), post)
      else ((""), l)
  | (_, none) => ((""), l)

/-- CPython netloc split: after a leading `//`, the netloc runs up to the
first `/`, `?` or `#`. Returns the netloc and the remainder. -/
def splitNetloc (rest : List Char) : String × List Char :=
  if ['/', '/'].isPrefixOf rest then
    let r := rest.drop 2
    (ofChars (r.takeWhile (fun c => !netlocEnd c)), r.dropWhile (fun c => !netlocEnd c))
  else ((""), rest)

/-- `urllib.parse.urlparse` (CPython order: strip tab/CR/LF, split the scheme
at the first `:` when the prefix is alphanumeric starting with a letter, take
the netloc after `//` up to `/?#`, split the fragment at the first `#`, then
the query at the first `?`). `params` is not modelled: the program never
reads it, and no `;` handling is exercised by the claims. -/
def urlparse (url : String) : UrlParts :=
  let l := stripUnsafe url.data
  let sr := splitScheme l
  let nr := splitNetloc sr.2
  let fragSplit := splitAtFirstL '#' nr.2
  let querySplit := splitAtFirstL '?' fragSplit.1
  ⟨sr.1, nr.1, ofChars querySplit.1, ofChars (querySplit.2.getD []),
    ofChars (fragSplit.2.getD [])⟩

/-- Hexadecimal value of a character, for percent-decoding (code points
48–57 are the digits, 97–102 the lowercase and 65–70 the uppercase hex
letters). -/
def hexVal (c : Char) : Option Nat :=
  let n := c.toNat
  if 48 ≤ n ∧ n ≤ 57 then some (n - 48)
  else if 97 ≤ n ∧ n ≤ 102 then some (n - 87)
  else if 65 ≤ n ∧ n ≤ 70 then some (n - 55)
  else none

/-- `urllib.parse.unquote_plus` on character lists: `+` becomes a space and
`%XX` decodes to the byte value (single-byte slice; multi-byte UTF-8 percent
sequences never occur in the numeric ids this program decodes). An invalid
`%` sequence is kept literally. The fuel argument is the input length,
which always suffices because every step consumes at least one
character. -/
def unqFuel : Nat → List Char → List Char
  | 0, l => l
  | _ + 1, [] => []
  | n + 1, c :: rest =>
    if c = '+' then ' ' :: unqFuel n rest
    else if c = '%' then
      match rest with
      | a :: b :: rest2 =>
        match hexVal a, hexVal b with
        | some ha, some hb => Char.ofNat (16 * ha + hb) :: unqFuel n rest2
        | _, _ => '%' :: unqFuel n rest
      | _ => '%' :: unqFuel n rest
    else c :: unqFuel n rest

/-- Percent-decoding with the fuel instantiated (the length always
suffices: every step consumes at least one character). -/
def unqChars (l : List Char) : List Char := unqFuel l.length l

/-- `urllib.parse.unquote_plus` on strings. -/
def unquote_plus (s : String) : String := ofChars (unqChars s.data)

/-- `urllib.parse.parse_qsl` with default arguments: split on `&`, keep only
pieces carrying `name=value` with a non-empty value, unquote both sides.
`parse_qs` groups this list by name; the program only ever reads the first
value of a name, so the pair list is the faithful representation. -/
def parse_qsl (qs : String) : List (String × String) :=
  (splitAllL '&' qs.data).filterMap (fun seg =>
    if seg.isEmpty then none
    else
      match splitAtFirstL '=' seg with
      | (_, none) => none
      | (name, some value) =>
        if value.isEmpty then none
        else some (unquote_plus (ofChars name), unquote_plus (ofChars value)))

/-- `query[key][0]` of `parse_qs`: the first value carried by `key`
(`none` when `key` is absent, which is exactly the falsity of
`key in query and query[key]`). -/
def qsFirst (pairs : List (String × String)) (k : String) : Option String :=
  (pairs.filter (fun p => p.1 = k)).head?.map (fun p => p.2)

/-! ## URL canonicalizer: extract_url / normalize_url / extract_goods_id /
canonicalize_pdd_goods_url -/

/-- Case-folding-aware character comparison for regex literals
(`ci = true` embeds the `re.I` flag). -/
def chEq (ci : Bool) (a b : Char) : Bool := if ci then a.toLower = b.toLower else a = b

/-- Match a literal regex fragment at the head of the input, returning the
consumed characters (original case) and the remainder. -/
def matchLit (ci : Bool) : List Char → List Char → Option (List Char × List Char)
  | [], l => some ([], l)
  | _ :: _, [] => none
  | p :: ps, c :: cs =>
    if chEq ci p c then (matchLit ci ps cs).map (fun r => (c :: r.1, r.2)) else none

/-- Match the regex fragment `https?://` at the head of the input (with the
backtracking of the optional greedy `s?`), returning the matched characters
and the remainder. -/
def schemeMatch (ci : Bool) (l : List Char) : Option (List Char × List Char) :=
  match matchLit ci (("http").data) l with
  | none => none
  | some (m1, r1) =>
    match r1 with
    | c :: cs =>
      if chEq ci 's' c then
        match matchLit ci (("://").data) cs with
        | some (m2, r3) => some (m1 ++ [c] ++ m2, r3)
        | none =>
          match matchLit ci (("://").data) r1 with
          | some (m2, r3) => some (m1 ++ m2, r3)
          | none => none
      else
        match matchLit ci (("://").data) r1 with
        | some (m2, r3) => some (m1 ++ m2, r3)
        | none => none
    | [] => none

/-- `re.search(r"(https?://[^\s]+)", text)` (case sensitive, as in
`extract_url`): the first position where `https?://` matches, extended
greedily over non-whitespace; at least one body character is required. -/
def searchHttpToken : List Char → Option String
  | [] => none
  | c :: rest =>
    match schemeMatch false (c :: rest) with
    | some (m, r) =>
      let body := r.takeWhile (fun ch => !isPySpace ch)
      if body.isEmpty then searchHttpToken rest else some (ofChars (m ++ body))
    | none => searchHttpToken rest

/-- `extract_url` (app.py:108): search the trimmed text for an `http(s)://`
token; on a hit, strip the characters `，。,.` from both ends of the match;
otherwise return the trimmed text. -/
def extract_url (text : String) : String :=
  match searchHttpToken (pyStrip text).data with
  | some m => pyStripBoth ['，', '。', ',', '.'] m
  | none => pyStrip text

/-- `normalize_url` (app.py:116): extract a URL token, return `""` for an
empty result, and prepend `https://` when the token parses without a
scheme. -/
def normalize_url (raw : String) : String :=
  let cleaned := extract_url raw
  if cleaned = ("") then ("")
  else if (urlparse cleaned).scheme = ("") then ("https://") ++ cleaned
  else cleaned

/-- `re.search(r"\d{5,}", s)`: the maximal digit run at the leftmost position
where at least five digits start. -/
def searchDigits5 : List Char → Option String
  | [] => none
  | c :: rest =>
    let run := (c :: rest).takeWhile Char.isDigit
    if 5 ≤ run.length then some (ofChars run) else searchDigits5 rest

/-- `re.search(lit + r"(\d{5,})", url).group(1)`: the digit run (length at
least five) following the leftmost viable occurrence of the literal. -/
def searchLitDigits (lit : String) : List Char → Option String
  | [] => none
  | c :: rest =>
    if lit.data.isPrefixOf (c :: rest) then
      let run := ((c :: rest).drop lit.data.length).takeWhile Char.isDigit
      if 5 ≤ run.length then some (ofChars run) else searchLitDigits lit rest
    else searchLitDigits lit rest

/-- The query-parameter loop of `extract_goods_id`: for each key in order, if
the key carries a value, search it for a five-plus digit run and return the
first hit; a key whose value has no such run falls through to the next key. -/
def tryQueryKeys (pairs : List (String × String)) : List String → Option String
  | [] => none
  | k :: ks =>
    match qsFirst pairs k with
    | some v =>
      match searchDigits5 v.data with
      | some d => some d
      | none => tryQueryKeys pairs ks
    | none => tryQueryKeys pairs ks

/-- `extract_goods_id` (app.py:126): query parameters `goods_id`, `goodsId`,
`gid` first, then the positional patterns `goods_id=(\d{5,})`,
`/goods/(\d{5,})`, `goods/(\d{5,})` over the whole URL; `""` when nothing
matches. -/
def extract_goods_id (url : String) : String :=
  let q := parse_qsl (urlparse url).query
  match tryQueryKeys q [("goods_id"), ("goodsId"), ("gid")] with
  | some d => d
  | none =>
    match searchLitDigits ("goods_id=") url.data with
    | some d => d
    | none =>
      match searchLitDigits ("/goods/") url.data with
      | some d => d
      | none =>
        match searchLitDigits ("goods/") url.data with
        | some d => d
        | none => ("")

/-- `canonicalize_pdd_goods_url` (app.py:141): the fixed-template goods URL
built from the extracted id, or the input unchanged when no id is found. -/
def canonicalize_pdd_goods_url (url : String) : String :=
  let goods_id := extract_goods_id url
  if goods_id = ("") then url
  else ("https://mobile.yangkeduo.com/goods.html?goods_id=") ++ goods_id

/-! ## Media classifier -/

/-- `IMAGE_EXT_PATTERN = r"\.(?:jpg|jpeg|png|webp|avif|gif)(?:$|\?)"` — the
alternatives of the extension group. -/
def IMAGE_EXTS : List String := [("jpg"), ("jpeg"), ("png"), ("webp"), ("avif"), ("gif")]

/-- `VIDEO_EXT_PATTERN = r"\.(?:mp4|m3u8|mov|webm)(?:$|\?)"`. -/
def VIDEO_EXTS : List String := [("mp4"), ("m3u8"), ("mov"), ("webm")]

/-- `STATIC_ASSET_EXT_PATTERN = r"\.(?:js|css|map|json|html|htm|txt|xml)(?:$|\?)"`. -/
def STATIC_ASSET_EXTS : List String :=
  [("js"), ("css"), ("map"), ("json"), ("html"), ("htm"), ("txt"), ("xml")]

/-- `pattern.search(s)` for the extension patterns above: some position holds
`.ext` followed by the end of the string or `?`; equivalently `s` contains
`.ext?` or ends with `.ext` for one of the alternatives. The patterns carry
`re.I` but are only ever applied to lowercased strings. -/
def extSearch (exts : List String) (s : String) : Bool :=
  exts.any (fun e =>
    listHasSub s.data ((("." ) ++ e ++ ("?")).data) || strEnds s ((".") ++ e))

/-- `VIDEO_HINTS` (app.py:27). -/
def VIDEO_HINTS : List String :=
  [("video"), ("play"), ("stream"), ("hls"), ("goods_video"), ("video_url")]

/-- `IMAGE_HINTS` (app.py:28). -/
def IMAGE_HINTS : List String := [("image"), ("img"), ("cover"), ("thumb"), ("pic")]

/-- `any(h in hay for h in needles)`. -/
def hasAny (hay : String) (needles : List String) : Bool :=
  needles.any (fun n => containsSub hay n)

/-- `BLOCKED_URL_KEYWORDS` (app.py:30). -/
def BLOCKED_URL_KEYWORDS : List String :=
  [("down_download"), ("android_browser_download"), ("ios_fast_download"),
   ("need_popover=true"), ("itunes.apple.com"), ("apps.apple.com")]

/-- `is_blocked_jump_url` (app.py:43). -/
def is_blocked_jump_url (url : String) : Bool :=
  hasAny (lowerStr url) BLOCKED_URL_KEYWORDS

/-- `normalize_candidate_url` (app.py:242): trim, and turn a
protocol-relative `//host/...` into `https://host/...`. -/
def normalize_candidate_url (value : String) : String :=
  let v := pyStrip value
  if strStarts v ("//") then ("https:") ++ v else v

/-- `item.split("?")[0]`: the path-normalization key of `uniq_by_path`. -/
def pathKey (s : String) : String := ofChars (splitAtFirstL '?' s.data).1

/-- The loop of `uniq_by_path` (app.py:193) with its `seen` set of keys. -/
def uniq_by_path_aux : List String → List String → List String
  | [], _ => []
  | x :: rest, seen =>
    if seen.contains (pathKey x) then uniq_by_path_aux rest seen
    else x :: uniq_by_path_aux rest (pathKey x :: seen)

/-- `uniq_by_path` (app.py:193): first-seen-wins dedup by query-stripped URL. -/
def uniq_by_path (items : List String) : List String := uniq_by_path_aux items []

/-- Result of classifying one candidate in `classify_media_urls`. -/
inductive MediaClass where
  | img (url : String)
  | vid (url : String)
  | skip
deriving DecidableEq

/-- The branch chain of the `classify_media_urls` loop body (app.py:209–233)
on the normalized URL: reject non-http and static-asset URLs, then match
image extensions, video extensions, the video hint-plus-path-token rule,
and the image hint-plus-path-token rule, in that order. -/
def classify_url (url : String) : MediaClass :=
  if !strStarts url ("http") then .skip
  else
    let low := lowerStr url
    if extSearch STATIC_ASSET_EXTS low then .skip
    else
      let path := lowerStr (urlparse url).path
      if extSearch IMAGE_EXTS low then .img url
      else if extSearch VIDEO_EXTS low then .vid url
      else if hasAny low VIDEO_HINTS &&
          hasAny path [("/video"), ("video-"), ("/play"), ("m3u8"), ("mp4")] then .vid url
      else if hasAny low IMAGE_HINTS &&
          hasAny path [("/image"), ("/img"), ("cover"), ("thumb"), ("pic")] then .img url
      else .skip

/-- The loop body of `classify_media_urls` (app.py:208): normalize the raw
candidate, then run the branch chain. -/
def classify_candidate (raw : String) : MediaClass :=
  classify_url (normalize_candidate_url (pyStrip raw))

/-- `classify_media_urls` (app.py:204): the in-order image and video lists of
the classified candidates, each deduplicated by path. -/
def classify_media_urls (candidates : List String) : List String × List String :=
  (uniq_by_path (candidates.filterMap (fun r =>
      match classify_candidate r with
      | .img u => some u
      | _ => none)),
   uniq_by_path (candidates.filterMap (fun r =>
      match classify_candidate r with
      | .vid u => some u
      | _ => none)))

/-- The acceptance test of `filter_valid_video_urls` (app.py:288) on a
normalized candidate: an http URL that is no static asset and either carries
a video extension or passes the path-token plus keyword co-occurrence rule. -/
def video_url_valid (url : String) : Bool :=
  strStarts url ("http") &&
  !extSearch STATIC_ASSET_EXTS (lowerStr url) &&
  (extSearch VIDEO_EXTS (lowerStr url) ||
    (hasAny (lowerStr (urlparse url).path) [("/video"), ("video-"), ("/play")] &&
     hasAny (lowerStr url) [("m3u8"), ("mp4"), ("video")]))

/-- `filter_valid_video_urls` (app.py:288): keep the normalized candidates
passing `video_url_valid`, deduplicated by path. -/
def filter_valid_video_urls (urls : List String) : List String :=
  uniq_by_path (urls.filterMap (fun raw =>
    let url := normalize_candidate_url (pyStrip raw)
    if video_url_valid url then some url else none))

/-- `URL_PATTERN.findall` body: the allowed characters of
`[^\s\"'<>\\]+`. -/
def urlBodyChar (c : Char) : Bool :=
  !(isPySpace c || c = '"' || c = '\'' || c = '<' || c = '>' || c = '\\')

/-- `URL_PATTERN.findall(text)` for
`re.compile(r"https?://[^\s\"'<>\\]+", re.I)`: non-overlapping left-to-right
matches; fuel is the input length, which suffices because each step consumes
at least one character. -/
def urlFindAllFuel : Nat → List Char → List String
  | 0, _ => []
  | _ + 1, [] => []
  | n + 1, c :: rest =>
    match schemeMatch true (c :: rest) with
    | some (m, r) =>
      let body := r.takeWhile urlBodyChar
      if body.isEmpty then urlFindAllFuel n rest
      else ofChars (m ++ body) :: urlFindAllFuel n (r.drop body.length)
    | none => urlFindAllFuel n rest

/-- `extract_urls_from_text` (app.py:237): un-escape the serialized-JSON
slash variants, then run the URL regex. -/
def extract_urls_from_text (text : String) : List String :=
  let normalized := replaceSubAll (replaceSubAll text.data (("\\u002F").data) (("/").data))
    (("\\/").data) (("/").data)
  urlFindAllFuel normalized.length normalized

/-! ## Data model: ProductInfo and its raw diagnostic record

`ProductInfo.raw` is an open dict in the source; the program writes and
reads the fixed key set below, so the dict is embedded as a record whose
defaults equal the `dict.get(key, default)` fallbacks used by the source.
The one key probed for presence (`"fallback"`, app.py:917) is an `Option`. -/

structure RawInfo where
  html_length : Nat := 0
  method : String := ("")
  video_candidates : List String := []
  image_candidates : List String := []
  network_urls_count : Nat := 0
  json_video_candidates : Nat := 0
  canonical_url : String := ("")
  attempted_urls : List String := []
  needs_login : Bool := false
  static_errors : List String := []
  dynamic_attempts : List String := []
  merge_from : List String := []
  fallback : Option String := none
deriving DecidableEq

/-- `ProductInfo` (app.py:98). -/
structure ProductInfo where
  source_url : String
  final_url : String := ("")
  title : String := ("")
  images : List String := []
  videos : List String := []
  raw : RawInfo := {}
deriving DecidableEq

/-- `score_info` (app.py:570). -/
def score_info (info : ProductInfo) : Nat :=
  info.videos.length * 100 + info.images.length * 10 +
    (if info.title ≠ ("") ∧ info.title ≠ ("拼多多商城") then 1 else 0)

/-- `merge_info` (app.py:577), returning the mutated `base`. -/
def merge_info (base incoming : ProductInfo) (source_label : String) : ProductInfo :=
  let title :=
    if incoming.title ≠ ("") ∧ (base.title = ("") ∨ base.title = ("拼多多商城")) then
      incoming.title
    else base.title
  let final_url := if incoming.final_url ≠ ("") then incoming.final_url else base.final_url
  let merged_images := uniq_by_path (base.images ++ incoming.images)
  let merged_videos := uniq_by_path (base.videos ++ incoming.videos)
  { base with
    title := title
    final_url := final_url
    images := merged_images.take 6
    videos := merged_videos.take 3
    raw := { base.raw with
      video_candidates :=
        (uniq_by_path (base.raw.video_candidates ++ incoming.raw.video_candidates)).take 12
      image_candidates :=
        (uniq_by_path (base.raw.image_candidates ++ incoming.raw.image_candidates)).take 12
      merge_from := base.raw.merge_from ++ [source_label] } }

/-! ## JSON walker: extract_media_from_json_obj -/

/-- A parsed JSON value, the shape `json.loads` hands to
`extract_media_from_json_obj`. -/
inductive JsonVal where
  | str (s : String)
  | num (n : Int)
  | boolean (b : Bool)
  | null
  | arr (items : List JsonVal)
  | obj (fields : List (String × JsonVal))

/-- `classify_by_key` (app.py:253): key-path hints dominate; otherwise fall
back to `classify_media_urls` on the single URL. Returns the
(images, videos) contribution. -/
def classify_by_key (path value : String) : List String × List String :=
  let low_path := lowerStr path
  let url := normalize_candidate_url value
  if !strStarts url ("http") then ([], [])
  else if hasAny low_path VIDEO_HINTS then ([], [url])
  else if hasAny low_path IMAGE_HINTS then ([url], [])
  else classify_media_urls [url]

mutual

/-- `extract_media_from_json_obj` (app.py:249): recursive descent with
key-path context; every call returns its lists deduplicated by path, exactly
as the Python function does on each return. -/
def extract_media_from_json_obj : JsonVal → String → List String × List String
  | .obj fields, key_path =>
    let r := jsonWalkFields fields key_path
    (uniq_by_path r.1, uniq_by_path r.2)
  | .arr items, key_path =>
    let r := jsonWalkItems items key_path 0
    (uniq_by_path r.1, uniq_by_path r.2)
  | .str s, key_path =>
    let first := classify_by_key key_path s
    let r := (extract_urls_from_text s).foldl
      (fun acc u =>
        let c := classify_by_key key_path u
        (acc.1 ++ c.1, acc.2 ++ c.2))
      first
    (uniq_by_path r.1, uniq_by_path r.2)
  | _, _ => ([], [])

/-- The dict loop of `extract_media_from_json_obj`: path grows by `.key`
(bare key at the top level). -/
def jsonWalkFields : List (String × JsonVal) → String → List String × List String
  | [], _ => ([], [])
  | (k, v) :: rest, key_path =>
    let next_path := if key_path ≠ ("") then key_path ++ (".") ++ k else k
    let sub := extract_media_from_json_obj v next_path
    let more := jsonWalkFields rest key_path
    (sub.1 ++ more.1, sub.2 ++ more.2)

/-- The list loop of `extract_media_from_json_obj`: path grows by
`[index]`. -/
def jsonWalkItems : List JsonVal → String → Nat → List String × List String
  | [], _, _ => ([], [])
  | item :: rest, key_path, idx =>
    let next_path := key_path ++ ("[") ++ toString idx ++ ("]")
    let sub := extract_media_from_json_obj item next_path
    let more := jsonWalkItems rest key_path (idx + 1)
    (sub.1 ++ more.1, sub.2 ++ more.2)

end

/-! ## Static extraction: the parsed page and extract_from_html

`fetch_html` performs the HTTP GET and BeautifulSoup parses the markup;
both are external, so a fetch oracle returns either the error string of the
raised exception or the parsed page below together with the response URL
(`resp.text, resp.url`). The page records what `extract_from_html` reads
from the soup: meta tags by `property` and by `name` attribute (document
order, content attribute as written), the `<title>` text when the tag
exists, `<img>` attributes, `<video>`/`<source>` attributes, and the
space-joined script text. -/

structure ImgTag where
  src : String := ("")
  dataSrc : String := ("")
  dataOriginal : String := ("")
deriving DecidableEq

structure VideoTag where
  src : String := ("")
  sources : List String := []
deriving DecidableEq

structure Page where
  metaProps : List (String × String) := []
  metaNames : List (String × String) := []
  titleText : Option String := none
  imgs : List ImgTag := []
  videoTags : List VideoTag := []
  scriptText : String := ("")
  htmlLength : Nat := 0
deriving DecidableEq

/-- The first-seen exact-string dedup of `meta_values` (app.py:184). -/
def dedupExactAux : List String → List String → List String
  | [], _ => []
  | x :: rest, seen =>
    if seen.contains x then dedupExactAux rest seen
    else x :: dedupExactAux rest (x :: seen)

/-- `meta_values` (app.py:173): for each key in order, the stripped non-empty
`content` of every meta tag matching by `property`, then by `name`; the
collected values deduplicated exactly, first seen wins. -/
def meta_values (page : Page) (keys : List String) : List String :=
  dedupExactAux
    (keys.foldl (fun acc key =>
      acc ++
        (((page.metaProps.filter (fun p => p.1 = key)).map (fun p => pyStrip p.2)).filter
          (fun c => c ≠ (""))) ++
        (((page.metaNames.filter (fun p => p.1 = key)).map (fun p => pyStrip p.2)).filter
          (fun c => c ≠ (""))))
      [])
    []

/-- `extract_from_html` (app.py:309): title from `og:title`/`twitter:title`
meta first, else the stripped `<title>` text; image candidates from meta
tags then `<img>` attributes; video candidates from meta tags then
`<video>`/`<source>` attributes; inline script text classified through the
URL classifier; both candidate lists deduplicated by path. -/
def extract_from_html (page : Page) : String × List String × List String :=
  let title_candidates := meta_values page [("og:title"), ("twitter:title")]
  let title :=
    match title_candidates with
    | t :: _ => t
    | [] =>
      match page.titleText with
      | some t => if t ≠ ("") then pyStrip t else ("")
      | none => ("")
  let meta_images := meta_values page [("og:image"), ("twitter:image")]
  let meta_videos := meta_values page [("og:video"), ("og:video:url"), ("twitter:player")]
  let img_srcs := page.imgs.filterMap (fun img =>
    let src := normalize_candidate_url
      (pyStrip (firstNonEmpty [img.src, img.dataSrc, img.dataOriginal]))
    if strStarts src ("http") then some src else none)
  let video_srcs := page.videoTags.foldl (fun acc v =>
    let from_src :=
      let s := normalize_candidate_url (pyStrip v.src)
      if strStarts s ("http") then [s] else []
    let from_sources := v.sources.filterMap (fun s0 =>
      let s := normalize_candidate_url (pyStrip s0)
      if strStarts s ("http") then some s else none)
    acc ++ from_src ++ from_sources) []
  let script_urls := extract_urls_from_text page.scriptText
  let classified := classify_media_urls script_urls
  (title,
   uniq_by_path (meta_images ++ img_srcs ++ classified.1),
   uniq_by_path (meta_videos ++ video_srcs ++ classified.2))

/-- `parse_static` (app.py:343) over a fetch oracle standing for
`fetch_html` (the cookie header lives inside the oracle: the program passes
it through unchanged). -/
def parse_static (fetch : String → Except String (Page × String)) (source_url : String) :
    Except String ProductInfo :=
  match fetch source_url with
  | .error e => .error e
  | .ok (page, final_url) =>
    let r := extract_from_html page
    let all_images := uniq_by_path r.2.1
    let all_videos := uniq_by_path r.2.2
    .ok { source_url := source_url
          final_url := final_url
          title := r.1
          images := all_images.take 6
          videos := all_videos.take 3
          raw := { html_length := page.htmlLength
                   method := ("static")
                   video_candidates := all_videos.take 12
                   image_candidates := all_images.take 12 } }

/-! ## Dynamic extraction: the response listener and the post-processing -/

/-- One response delivered to `on_response`: its URL, the lowercase-able
`content-type` header (`headers.get("content-type") or ""`), the request
resource type, the body (`none` models `response.text()` raising), and the
result of `json.loads(body)` (`none` models a parse failure); JSON parsing
is external, so the parsed value rides along with the response. -/
structure PwResponse where
  url : String := ("")
  contentType : String := ("")
  resourceType : String := ("")
  body : Option String := none
  jsonBody : Option JsonVal := none

/-- The listener-local lists of `parse_dynamic_with_playwright`
(app.py:369), plus two instrumentation counters: `reads` counts the
`response.text()` calls made, and `productive_reads` counts those whose body
yielded at least one extracted URL. -/
structure ListenerState where
  response_urls : List String := []
  json_urls : List String := []
  json_images : List String := []
  json_videos : List String := []
  reads : Nat := 0
  productive_reads : Nat := 0

/-- `on_response` (app.py:416): record the response URL; for XHR/fetch or
JSON-typed responses, while fewer than 80 URLs have been captured, read the
body; keep it only when it contains `http` and one of the fixed keywords;
extend `json_urls` with its extracted URLs and, when the body parses as
JSON, extend the media lists through the JSON walker. This is the capture
part, after the response URL has been recorded into the state. -/
def on_response_capture (s1 : ListenerState) (r : PwResponse) : ListenerState :=
  let content_type := lowerStr r.contentType
  if (r.resourceType ≠ ("xhr") ∧ r.resourceType ≠ ("fetch")) ∧
      ¬ containsSub content_type ("json") = true then s1
  else if 80 ≤ s1.json_urls.length then s1
  else
    match r.body with
    | none => { s1 with reads := s1.reads + 1 }
    | some body =>
      let s2 := { s1 with reads := s1.reads + 1 }
      if !containsSub body ("http") then s2
      else if !hasAny (lowerStr body) [("video"), ("image"), ("goods"), ("mp4"), ("m3u8")] then
        s2
      else
        let ext := extract_urls_from_text body
        let s3 := { s2 with
          json_urls := s2.json_urls ++ ext
          productive_reads := s2.productive_reads + (if ext.isEmpty then 0 else 1) }
        match r.jsonBody with
        | none => s3
        | some payload =>
          let media := extract_media_from_json_obj payload ("")
          { s3 with
            json_images := s3.json_images ++ media.1
            json_videos := s3.json_videos ++ media.2 }

/-- `on_response` (app.py:416): the response-URL recording followed by the
guarded body capture above. -/
def on_response (s : ListenerState) (r : PwResponse) : ListenerState :=
  on_response_capture
    (if strStarts r.url ("http") then { s with response_urls := s.response_urls ++ [r.url] }
     else s) r

/-- The listener state after a sequence of responses. -/
def run_listener (responses : List PwResponse) : ListenerState :=
  responses.foldl on_response {}

/-- What one dynamic browser run delivers to the pure tail of
`parse_dynamic_with_playwright`: the final page URL, the parsed final
`page.content()`, the three DOM-evaluated asset lists, the URLs handed to
`on_request`, and the responses handed to `on_response`. Navigation,
scrolling and listener (de)registration are external effects; a failed run
surfaces as an error of the dynamic oracle instead. -/
structure DynCapture where
  finalUrl : String := ("")
  page : Page := {}
  pageImgs : List String := []
  pageVideos : List String := []
  pageLinks : List String := []
  requestUrls : List String := []
  responses : List PwResponse := []

/-- `parse_dynamic_with_playwright` (app.py:362), lines 542–567: combine
HTML-derived media, DOM-evaluated assets, JSON-derived media and the
classified network traffic; dedup by path; cap at 6 images / 3 videos with
12-entry diagnostic candidate lists. -/
def parse_dynamic_with_playwright (source_url : String) (cap : DynCapture) : ProductInfo :=
  let st := run_listener cap.responses
  let network_urls := cap.requestUrls.filter (fun u => strStarts u ("http"))
  let r := extract_from_html cap.page
  let images := r.2.1 ++ cap.pageImgs ++ st.json_images
  let videos := r.2.2 ++ cap.pageVideos ++ cap.pageLinks ++ st.json_videos
  let all_network := network_urls ++ st.response_urls ++ st.json_urls
  let net := classify_media_urls all_network
  let images2 := images ++ net.1
  let videos2 := videos ++ net.2
  let all_images := uniq_by_path images2
  let all_videos := uniq_by_path videos2
  { source_url := source_url
    final_url := cap.finalUrl
    title := r.1
    images := all_images.take 6
    videos := all_videos.take 3
    raw := { html_length := cap.page.htmlLength
             method := ("playwright")
             network_urls_count := (uniq_by_path all_network).length
             json_video_candidates := (uniq_by_path st.json_videos).length
             video_candidates := all_videos.take 12
             image_candidates := all_images.take 12 } }

/-! ## Fusion: parse_product_info -/

/-- The candidate-URL set of `parse_product_info` (app.py:843): the source
URL plus its canonical form when different. -/
def candidate_urls (source_url : String) : List String :=
  let canonical := canonicalize_pdd_goods_url source_url
  if canonical ≠ source_url then [source_url, canonical] else [source_url]

/-- The static loop of `parse_product_info` (app.py:850): per-URL successes
in order, and per-URL error strings `"{u} -> {exc}"` in order. -/
def run_static_attempts (fetch : String → Except String (Page × String)) :
    List String → List ProductInfo × List String
  | [] => ([], [])
  | u :: rest =>
    let r := run_static_attempts fetch rest
    match parse_static fetch u with
    | .ok i => (i :: r.1, r.2)
    | .error e => (r.1, (u ++ (" -> ") ++ e) :: r.2)

/-- `max(static_infos, key=score_info)`: first maximum wins, as for Python
`max`. -/
def best_static (b : ProductInfo) (rest : List ProductInfo) : ProductInfo :=
  rest.foldl (fun acc x => if score_info acc < score_info x then x else acc) b

/-- Lines 848–874 of `parse_product_info`: run the static attempts, fail
with the aggregated message when none succeeded, else seed the result from
the best static info and record the diagnostic fields. (`static_errors` is
only written when non-empty in the source; the record default `[]` makes the
unconditional write observationally identical.) -/
def static_seed (fetch : String → Except String (Page × String)) (source_url : String) :
    Except String ProductInfo :=
  let canonical := canonicalize_pdd_goods_url source_url
  let cands := candidate_urls source_url
  let r := run_static_attempts fetch cands
  match r.1 with
  | [] => .error (("静态抓取全部失败: ") ++ String.intercalate (" | ") r.2)
  | b :: rest =>
    let best := best_static b rest
    .ok { source_url := source_url
          final_url := best.final_url
          title := best.title
          images := best.images
          videos := best.videos
          raw := { best.raw with
            method := ("static")
            canonical_url := canonical
            attempted_urls := cands
            needs_login := containsSub source_url ("needs_login=1")
            static_errors := r.2 } }

/-- `need_dynamic` (app.py:876): missing title, or no image, or no video. -/
def need_dynamic (info : ProductInfo) : Bool :=
  info.title = ("") || info.images.length < 1 || info.videos.length < 1

/-- Lines 880–888: the dynamic-attempt URL list — the seed final URL (or the
source URL when it is empty or blocked), then the unqueued, unblocked
candidate URLs. -/
def dynamic_attempt_urls (info : ProductInfo) (source_url : String) (cands : List String) :
    List String :=
  let first_try := if info.final_url ≠ ("") then info.final_url else source_url
  let base := if is_blocked_jump_url first_try then [source_url] else [first_try]
  cands.foldl (fun acc u =>
    if !acc.contains u && !is_blocked_jump_url u then acc ++ [u] else acc) base

/-- The dynamic loop of `parse_product_info` (app.py:891): try each URL in
order through the dynamic oracle; on success merge, raise the two network
counters to their maxima, log `"{u} -> ok"`, set the fallback/method fields,
and stop once a video is present; on failure log `"{u} -> failed: {exc}"`. -/
def dyn_loop (dyn : String → Except String DynCapture) :
    List String → Nat → ProductInfo → List String → ProductInfo × List String
  | [], _, info, logs => (info, logs)
  | u :: rest, idx, info, logs =>
    match dyn u with
    | .error e => dyn_loop dyn rest (idx + 1) info (logs ++ [u ++ (" -> failed: ") ++ e])
    | .ok cap =>
      let d := parse_dynamic_with_playwright u cap
      let merged := merge_info info d (("dynamic_") ++ toString idx ++ (":") ++ u)
      let updated := { merged with raw := { merged.raw with
        network_urls_count := max merged.raw.network_urls_count d.raw.network_urls_count
        json_video_candidates :=
          max merged.raw.json_video_candidates d.raw.json_video_candidates
        fallback := some ("playwright")
        method := ("hybrid(static+playwright)") } }
      let logs2 := logs ++ [u ++ (" -> ok")]
      if updated.videos ≠ [] then (updated, logs2)
      else dyn_loop dyn rest (idx + 1) updated logs2

/-- Lines 915–918 of `parse_product_info`: record the dynamic attempt log
when any attempt ran, and the `playwright_failed` fallback marker when no
attempt succeeded. -/
def apply_dynamic_logs (info2 : ProductInfo) (logs : List String) : ProductInfo :=
  let info3 :=
    if logs ≠ [] then { info2 with raw := { info2.raw with dynamic_attempts := logs } }
    else info2
  if info3.raw.fallback = none ∧ logs ≠ [] then
    { info3 with raw := { info3.raw with
      fallback := some (("playwright_failed: ") ++ String.intercalate (" | ") logs) } }
  else info3

/-- Lines 920–921 of `parse_product_info`: the final video-URL validity
filter on the primary list and the diagnostic candidate list. -/
def finalize_videos (info4 : ProductInfo) : ProductInfo :=
  { info4 with
    videos := (filter_valid_video_urls info4.videos).take 3
    raw := { info4.raw with
      video_candidates := (filter_valid_video_urls info4.raw.video_candidates).take 12 } }

/-- Lines 880–923 of `parse_product_info`: the dynamic-attempt loop over its
URL list, the diagnostic entries, and the final video-validity filter. -/
def dynamic_stage (dyn : String → Except String DynCapture) (source_url : String)
    (info : ProductInfo) : ProductInfo :=
  let urls := dynamic_attempt_urls info source_url (candidate_urls source_url)
  let r := dyn_loop dyn urls 0 info []
  finalize_videos (apply_dynamic_logs r.1 r.2)

/-- `parse_product_info` (app.py:838) over the fetch and dynamic oracles:
static seed, early return when the seed is already complete, otherwise the
dynamic stage. -/
def parse_product_info (fetch : String → Except String (Page × String))
    (dyn : String → Except String DynCapture) (source_url : String) :
    Except String ProductInfo :=
  match static_seed fetch source_url with
  | .error e => .error e
  | .ok info =>
    if !need_dynamic info then .ok info
    else .ok (dynamic_stage dyn source_url info)

/-! ## Helper lemmas -/

/-- Elements produced by the dedup loop come from its input list. -/
theorem mem_uniq_by_path_aux {y : String} :
    ∀ {l seen : List String}, y ∈ uniq_by_path_aux l seen → y ∈ l := by
  intro l
  induction l with
  | nil => intro seen h; simp [uniq_by_path_aux] at h
  | cons x rest ih =>
    intro seen h
    simp only [uniq_by_path_aux] at h
    split at h
    · exact List.mem_cons_of_mem x (ih h)
    · rcases List.mem_cons.mp h with h1 | h2
      · exact h1 ▸ List.mem_cons_self x rest
      · exact List.mem_cons_of_mem x (ih h2)

/-- Elements of `uniq_by_path` come from its input list. -/
theorem mem_uniq_by_path {y : String} {l : List String} (h : y ∈ uniq_by_path l) : y ∈ l :=
  mem_uniq_by_path_aux h

/-- The dedup loop never emits a key it has already seen. -/
theorem uniq_by_path_aux_key_not_seen {y : String} :
    ∀ {l seen : List String}, y ∈ uniq_by_path_aux l seen → pathKey y ∉ seen := by
  intro l
  induction l with
  | nil => intro seen h; simp [uniq_by_path_aux] at h
  | cons x rest ih =>
    intro seen h
    simp only [uniq_by_path_aux] at h
    split at h
    · exact ih h
    · rename_i hx
      rcases List.mem_cons.mp h with h1 | h2
      · subst h1
        simpa using hx
      · have := ih h2
        intro hmem
        exact this (List.mem_cons_of_mem _ hmem)

/-- The dedup loop emits pairwise distinct path keys. -/
theorem uniq_by_path_aux_pairwise :
    ∀ (l seen : List String),
      (uniq_by_path_aux l seen).Pairwise (fun a b => pathKey a ≠ pathKey b) := by
  intro l
  induction l with
  | nil => intro seen; simp [uniq_by_path_aux]
  | cons x rest ih =>
    intro seen
    simp only [uniq_by_path_aux]
    split
    · exact ih _
    · refine List.pairwise_cons.mpr ⟨?_, ih _⟩
      intro b hb hkey
      exact uniq_by_path_aux_key_not_seen hb (hkey ▸ List.mem_cons_self _ _)

/-- `uniq_by_path` emits pairwise distinct path keys. -/
theorem uniq_by_path_pairwise (l : List String) :
    (uniq_by_path l).Pairwise (fun a b => pathKey a ≠ pathKey b) :=
  uniq_by_path_aux_pairwise l []

/-- A truncated deduplicated list still has pairwise distinct path keys. -/
theorem take_uniq_by_path_pairwise (l : List String) (n : Nat) :
    ((uniq_by_path l).take n).Pairwise (fun a b => pathKey a ≠ pathKey b) :=
  List.Pairwise.sublist (List.take_sublist n (uniq_by_path l)) (uniq_by_path_pairwise l)

/-- Members of a truncated deduplicated list come from the input list. -/
theorem mem_take_uniq_by_path {y : String} {l : List String} {n : Nat}
    (h : y ∈ (uniq_by_path l).take n) : y ∈ l :=
  mem_uniq_by_path ((List.take_sublist n (uniq_by_path l)).subset h)

/-- The provable part of the data-model invariant of the spec: both media
lists respect their caps and are unique after path normalization. -/
def media_caps_ok (info : ProductInfo) : Prop :=
  info.images.length ≤ 6 ∧ info.videos.length ≤ 3 ∧
  info.images.Pairwise (fun a b => pathKey a ≠ pathKey b) ∧
  info.videos.Pairwise (fun a b => pathKey a ≠ pathKey b)

/-- `media_caps_ok` on a fallible result (vacuous on errors). -/
def media_caps_okE : Except String ProductInfo → Prop
  | .ok info => media_caps_ok info
  | .error _ => True

set_option maxHeartbeats 1000000 in
/-- `parse_static` respects the caps and path-uniqueness. -/
theorem parse_static_caps {fetch : String → Except String (Page × String)} {u : String}
    {info : ProductInfo} (h : parse_static fetch u = .ok info) : media_caps_ok info := by
  unfold parse_static at h
  cases hf : fetch u with
  | error e => rw [hf] at h; exact absurd h (by simp)
  | ok pr =>
    rw [hf] at h
    cases h
    unfold media_caps_ok
    exact ⟨List.length_take_le .., List.length_take_le ..,
      take_uniq_by_path_pairwise .., take_uniq_by_path_pairwise ..⟩

set_option maxHeartbeats 1000000 in
/-- `parse_dynamic_with_playwright` respects the caps and path-uniqueness. -/
theorem parse_dynamic_caps (src : String) (cap : DynCapture) :
    media_caps_ok (parse_dynamic_with_playwright src cap) := by
  unfold media_caps_ok parse_dynamic_with_playwright
  exact ⟨List.length_take_le .., List.length_take_le ..,
    take_uniq_by_path_pairwise .., take_uniq_by_path_pairwise ..⟩

/-- `merge_info` respects the caps and path-uniqueness for any inputs. -/
theorem merge_info_caps (base incoming : ProductInfo) (lbl : String) :
    media_caps_ok (merge_info base incoming lbl) := by
  unfold media_caps_ok merge_info
  exact ⟨List.length_take_le .., List.length_take_le ..,
    take_uniq_by_path_pairwise .., take_uniq_by_path_pairwise ..⟩

/-- Every collected static success is a `parse_static` result. -/
theorem mem_run_static_attempts {fetch : String → Except String (Page × String)}
    {i : ProductInfo} :
    ∀ {urls : List String}, i ∈ (run_static_attempts fetch urls).1 →
      ∃ u, parse_static fetch u = .ok i := by
  intro urls
  induction urls with
  | nil => intro h; simp [run_static_attempts] at h
  | cons u rest ih =>
    intro h
    simp only [run_static_attempts] at h
    cases hp : parse_static fetch u with
    | ok j =>
      rw [hp] at h
      rcases List.mem_cons.mp h with h1 | h2
      · exact ⟨u, h1 ▸ hp⟩
      · exact ih h2
    | error e =>
      rw [hp] at h
      exact ih h

/-- The Python `max` fold picks one of its inputs. -/
theorem best_static_mem (b : ProductInfo) (rest : List ProductInfo) :
    best_static b rest ∈ b :: rest := by
  unfold best_static
  induction rest generalizing b with
  | nil => simp
  | cons x xs ih =>
    simp only [List.foldl_cons]
    rcases List.mem_cons.mp (ih (if score_info b < score_info x then x else b)) with h1 | h2
    · rw [h1]
      split
      · exact List.mem_cons_of_mem _ (List.mem_cons_self _ _)
      · exact List.mem_cons_self _ _
    · exact List.mem_cons_of_mem _ (List.mem_cons_of_mem _ h2)

/-- The static seed inherits the caps and path-uniqueness of the best
static result. -/
theorem static_seed_caps {fetch : String → Except String (Page × String)} {src : String}
    {info : ProductInfo} (h : static_seed fetch src = .ok info) : media_caps_ok info := by
  simp only [static_seed] at h
  cases hr : (run_static_attempts fetch (candidate_urls src)).1 with
  | nil => rw [hr] at h; exact absurd h (by simp)
  | cons b rest =>
    rw [hr] at h
    cases h
    have hmem : best_static b rest ∈ b :: rest := best_static_mem b rest
    rw [← hr] at hmem
    obtain ⟨u, hu⟩ := mem_run_static_attempts hmem
    have := parse_static_caps hu
    exact this

/-- The dynamic loop preserves the caps and path-uniqueness. -/
theorem dyn_loop_caps (dyn : String → Except String DynCapture) :
    ∀ (urls : List String) (idx : Nat) (info : ProductInfo) (logs : List String),
      media_caps_ok info → media_caps_ok (dyn_loop dyn urls idx info logs).1 := by
  intro urls
  induction urls with
  | nil => intro idx info logs h; simpa [dyn_loop] using h
  | cons u rest ih =>
    intro idx info logs h
    simp only [dyn_loop]
    cases hd : dyn u with
    | error e => exact ih _ _ _ h
    | ok cap =>
      simp only []
      have hm := merge_info_caps info (parse_dynamic_with_playwright u cap)
        (("dynamic_") ++ toString idx ++ (":") ++ u)
      split
      · exact ⟨hm.1, hm.2.1, hm.2.2.1, hm.2.2.2⟩
      · exact ih _ _ _ ⟨hm.1, hm.2.1, hm.2.2.1, hm.2.2.2⟩

/-- The diagnostic log updates change no media list. -/
theorem apply_dynamic_logs_media (info2 : ProductInfo) (logs : List String) :
    (apply_dynamic_logs info2 logs).images = info2.images ∧
    (apply_dynamic_logs info2 logs).videos = info2.videos ∧
    (apply_dynamic_logs info2 logs).raw.video_candidates = info2.raw.video_candidates := by
  simp only [apply_dynamic_logs]
  split <;> split <;> exact ⟨rfl, rfl, rfl⟩

/-- Field equations of the final filter step. -/
theorem finalize_videos_fields (i : ProductInfo) :
    (finalize_videos i).images = i.images ∧
    (finalize_videos i).videos = (filter_valid_video_urls i.videos).take 3 ∧
    (finalize_videos i).raw.video_candidates =
      (filter_valid_video_urls i.raw.video_candidates).take 12 :=
  ⟨rfl, rfl, rfl⟩

/-- `dynamic_stage` unfolded to its stages. -/
theorem dynamic_stage_eq (dyn : String → Except String DynCapture) (src : String)
    (info : ProductInfo) :
    dynamic_stage dyn src info =
      finalize_videos (apply_dynamic_logs
        (dyn_loop dyn (dynamic_attempt_urls info src (candidate_urls src)) 0 info []).1
        (dyn_loop dyn (dynamic_attempt_urls info src (candidate_urls src)) 0 info []).2) :=
  rfl

/-- `dynamic_stage` leaves `images` at the dynamic-loop output. -/
theorem dynamic_stage_images (dyn : String → Except String DynCapture) (src : String)
    (info : ProductInfo) :
    (dynamic_stage dyn src info).images =
      (dyn_loop dyn (dynamic_attempt_urls info src (candidate_urls src)) 0 info []).1.images := by
  rw [dynamic_stage_eq, (finalize_videos_fields _).1]
  exact (apply_dynamic_logs_media _ _).1

/-- The video lists of `dynamic_stage` are truncations of the validity
filter, for both the primary field and the diagnostic candidates. -/
theorem dynamic_stage_videos_shape (dyn : String → Except String DynCapture) (src : String)
    (info : ProductInfo) :
    (∃ l, (dynamic_stage dyn src info).videos = (filter_valid_video_urls l).take 3) ∧
    (∃ l, (dynamic_stage dyn src info).raw.video_candidates =
      (filter_valid_video_urls l).take 12) := by
  rw [dynamic_stage_eq]
  exact ⟨⟨_, (finalize_videos_fields _).2.1⟩, ⟨_, (finalize_videos_fields _).2.2⟩⟩

/-- `parse_product_info` respects the caps and path-uniqueness on every
return path. -/
theorem parse_product_info_caps {fetch : String → Except String (Page × String)}
    {dyn : String → Except String DynCapture} {src : String} {info : ProductInfo}
    (h : parse_product_info fetch dyn src = .ok info) : media_caps_ok info := by
  unfold parse_product_info at h
  cases hs : static_seed fetch src with
  | error e => rw [hs] at h; simp at h
  | ok seed =>
    rw [hs] at h
    simp only [] at h
    split at h
    · cases h
      exact static_seed_caps hs
    · have hi : dynamic_stage dyn src seed = info := by
        injection h
      rw [← hi]
      unfold media_caps_ok
      refine ⟨?_, ?_, ?_, ?_⟩
      · rw [dynamic_stage_images]
        exact (dyn_loop_caps dyn _ 0 seed [] (static_seed_caps hs)).1
      · obtain ⟨l, hl⟩ := (dynamic_stage_videos_shape dyn src seed).1
        rw [hl]
        exact List.length_take_le ..
      · rw [dynamic_stage_images]
        exact (dyn_loop_caps dyn _ 0 seed [] (static_seed_caps hs)).2.2.1
      · obtain ⟨l, hl⟩ := (dynamic_stage_videos_shape dyn src seed).1
        rw [hl]
        exact take_uniq_by_path_pairwise ..

/-- Every member of `filter_valid_video_urls` passes the validity test. -/
theorem mem_filter_valid_video_urls {v : String} {l : List String}
    (h : v ∈ filter_valid_video_urls l) : video_url_valid v = true := by
  unfold filter_valid_video_urls at h
  obtain ⟨a, _, ha⟩ := List.mem_filterMap.mp (mem_uniq_by_path h)
  by_cases hv : video_url_valid (normalize_candidate_url (pyStrip a)) = true
  · simp only [hv, if_true] at ha
    cases ha
    exact hv
  · simp only [Bool.not_eq_true] at hv
    simp [hv] at ha

/-- A truncation of `filter_valid_video_urls` passes the validity test
entry-wise. -/
theorem all_valid_take_filter (l : List String) (n : Nat) :
    ((filter_valid_video_urls l).take n).all video_url_valid = true := by
  rw [List.all_eq_true]
  intro v hv
  exact mem_filter_valid_video_urls ((List.take_sublist ..).subset hv)

/-- The branch chain never rewrites the URL it classifies as an image. -/
theorem classify_url_img_eq {x v : String} (h : classify_url x = .img v) : v = x := by
  simp only [classify_url] at h
  repeat' split at h
  all_goals first
    | (cases h; rfl)
    | exact absurd h (by simp)

/-- The branch chain never rewrites the URL it classifies as a video. -/
theorem classify_url_vid_eq {x v : String} (h : classify_url x = .vid v) : v = x := by
  simp only [classify_url] at h
  repeat' split at h
  all_goals first
    | (cases h; rfl)
    | exact absurd h (by simp)

/-- The listener invariant: the productive-read counter is bounded by the
captured-URL count and by the 80 cap. -/
def listener_inv (s : ListenerState) : Prop :=
  s.productive_reads ≤ s.json_urls.length ∧ s.productive_reads ≤ 80

/-- One capture step preserves the listener invariant: a body is read only
while fewer than 80 URLs are captured, and a productive read adds at least
one URL. -/
theorem on_response_capture_inv (s1 : ListenerState) (r : PwResponse)
    (h : listener_inv s1) : listener_inv (on_response_capture s1 r) := by
  obtain ⟨h1, h2⟩ := h
  unfold listener_inv
  simp only [on_response_capture]
  split
  · exact ⟨h1, h2⟩
  · split
    · exact ⟨h1, h2⟩
    · rename_i hlen
      simp only [Nat.not_le] at hlen
      cases r.body with
      | none => exact ⟨h1, h2⟩
      | some body =>
        simp only []
        split
        · exact ⟨h1, h2⟩
        · split
          · exact ⟨h1, h2⟩
          · cases r.jsonBody with
            | none =>
              dsimp only
              constructor
              · simp only [List.length_append]
                split
                · omega
                · rename_i hne
                  have hlen1 : (extract_urls_from_text body).length ≠ 0 := by
                    simpa [List.isEmpty_iff_length_eq_zero] using hne
                  omega
              · split <;> omega
            | some payload =>
              dsimp only
              constructor
              · simp only [List.length_append]
                split
                · omega
                · rename_i hne
                  have hlen1 : (extract_urls_from_text body).length ≠ 0 := by
                    simpa [List.isEmpty_iff_length_eq_zero] using hne
                  omega
              · split <;> omega

/-- One listener step preserves the invariant. -/
theorem on_response_inv (s : ListenerState) (r : PwResponse) (h : listener_inv s) :
    listener_inv (on_response s r) := by
  unfold on_response
  apply on_response_capture_inv
  split
  · exact h
  · exact h

/-- The listener invariant holds after any response sequence. -/
theorem run_listener_inv (responses : List PwResponse) :
    listener_inv (run_listener responses) := by
  unfold run_listener
  have hstep : ∀ s, listener_inv s → listener_inv (responses.foldl on_response s) := by
    induction responses with
    | nil => intro s h; exact h
    | cons r rest ih =>
      intro s h
      exact ih _ (on_response_inv s r h)
  exact hstep {} ⟨Nat.le_refl 0, Nat.zero_le 80⟩

/-! ## Helper lemmas for the static-failure aggregation -/

/-- Whether the fetch oracle fails on a URL (the static attempt raises). -/
def fetchFailed (fetch : String → Except String (Page × String)) (u : String) : Bool :=
  match fetch u with
  | .error _ => true
  | .ok _ => false

/-- The error string the fetch oracle raises on a URL (sentinel when it
succeeds). -/
def fetchErr (fetch : String → Except String (Page × String)) (u : String) : String :=
  match fetch u with
  | .error e => e
  | .ok _ => ("")

/-- When every URL of the list fails, the static loop collects no info and
one `"{u} -> {exc}"` entry per URL, in order. -/
theorem run_static_attempts_all_fail (fetch : String → Except String (Page × String)) :
    ∀ (urls : List String), (∀ u ∈ urls, fetchFailed fetch u = true) →
      run_static_attempts fetch urls =
        ([], urls.map (fun u => u ++ (" -> ") ++ fetchErr fetch u)) := by
  intro urls
  induction urls with
  | nil => intro _; rfl
  | cons u rest ih =>
    intro hall
    have hu := hall u (List.mem_cons_self ..)
    unfold fetchFailed at hu
    simp only [run_static_attempts]
    rw [ih (fun v hv => hall v (List.mem_cons_of_mem _ hv))]
    cases hf : fetch u with
    | ok pr => rw [hf] at hu; simp at hu
    | error e =>
      have hp : parse_static fetch u = .error e := by
        unfold parse_static; rw [hf]
      rw [hp]
      simp [fetchErr, hf]

/-- A successful URL keeps the static-info list non-empty. -/
theorem run_static_attempts_success {fetch : String → Except String (Page × String)}
    {u : String} :
    ∀ {urls : List String}, u ∈ urls → fetchFailed fetch u = false →
      (run_static_attempts fetch urls).1 ≠ [] := by
  intro urls
  induction urls with
  | nil => intro h; simp at h
  | cons v rest ih =>
    intro hmem hok
    simp only [run_static_attempts]
    cases hp : parse_static fetch v with
    | ok i => simp
    | error e =>
      rcases List.mem_cons.mp hmem with h1 | h2
      · subst h1
        unfold fetchFailed at hok
        unfold parse_static at hp
        cases hf : fetch u with
        | ok pr => rw [hf] at hp; simp at hp
        | error e2 => rw [hf] at hok; simp at hok
      · exact ih h2 hok

/-! ## Concrete oracles used by witnesses and counterexamples -/

/-- Fetch oracle whose page carries a title, an image and an `og:video`
value that the final validity filter rejects. -/
def c1CexFetch : String → Except String (Page × String) := fun _ =>
  .ok ({ metaProps := [(("og:title"), ("T")), (("og:image"), ("https://x.example/a.jpg")),
          (("og:video"), ("https://x.example/watch"))] }, ("https://x.example/final"))

/-- Dynamic oracle that always fails. -/
def cexDynFail : String → Except String DynCapture := fun _ => .error ("no browser")

/-- Fetch oracle returning an empty page (forces the dynamic path). -/
def c1WitFetch : String → Except String (Page × String) := fun _ =>
  .ok ({}, ("https://w.example/f"))

def c1WitSrc : String := ("https://w.example/p")

def c1WitSeed : ProductInfo :=
  match static_seed c1WitFetch c1WitSrc with
  | .ok i => i
  | .error _ => { source_url := ("") }

def c1WitInfo : ProductInfo :=
  match parse_product_info c1WitFetch cexDynFail c1WitSrc with
  | .ok i => i
  | .error _ => { source_url := ("") }

/-- Fetch oracle whose page carries a non-absolute `og:image` value. -/
def c2CexFetch : String → Except String (Page × String) := fun _ =>
  .ok ({ metaProps := [(("og:image"), ("notaurl"))] }, ("https://c2.example/f"))

/-- Fetch oracle that always fails. -/
def c6FailFetch : String → Except String (Page × String) := fun _ => .error ("boom")

/-- Fetch oracle that always succeeds with an empty page. -/
def c6OkFetch : String → Except String (Page × String) := fun _ =>
  .ok ({}, ("https://c6.example/f"))

def c6Src : String := ("https://mobile.yangkeduo.com/goods.html?goods_id=123456789")

/-- A response whose body passes the keyword gate but contains no
extractable URL. -/
def c8Resp : PwResponse :=
  { url := ("https://api.example/q"), resourceType := ("xhr"), body := some (("http video")) }

def c9Cands : List String := [("https://a.example/x.jpg"), ("https://a.example/v.mp4")]

/-! ## Claims -/

/-- C1: the claim asserts that the final video-URL validity filter has been
applied to `info.videos` and `raw["video_candidates"]` on every return path
of `parse_product_info`, including the static-only early return. The early
return (app.py:878) happens before the filter (app.py:920); a static page
whose `og:video` meta is a URL the filter rejects is returned unfiltered. -/
theorem C1_counterexample :
    (match parse_product_info c1CexFetch cexDynFail (("https://e.example/p")) with
     | .ok i => i.videos
     | .error _ => []) = [("https://x.example/watch")] ∧
    video_url_valid (("https://x.example/watch")) = false ∧
    filter_valid_video_urls [("https://x.example/watch")] = [] := by decide

/-- C1 (amended): when the static seed is incomplete (so the dynamic stage
runs), every entry of the returned `videos` and of the diagnostic
`video_candidates` passes the video-URL validity filter; the static-only
early return path returns the static lists unfiltered. -/
theorem C1_final_filter_after_dynamic
    (fetch : String → Except String (Page × String))
    (dyn : String → Except String DynCapture) (src : String) (seed info : ProductInfo)
    (hseed : static_seed fetch src = .ok seed) (hneed : need_dynamic seed = true)
    (hres : parse_product_info fetch dyn src = .ok info) :
    info.videos.all video_url_valid = true ∧
    info.raw.video_candidates.all video_url_valid = true := by
  unfold parse_product_info at hres
  rw [hseed] at hres
  simp only [] at hres
  split at hres
  · rename_i hcond
    rw [hneed] at hcond
    simp at hcond
  · have hi : dynamic_stage dyn src seed = info := by injection hres
    obtain ⟨l1, hl1⟩ := (dynamic_stage_videos_shape dyn src seed).1
    obtain ⟨l2, hl2⟩ := (dynamic_stage_videos_shape dyn src seed).2
    rw [← hi, hl1, hl2]
    exact ⟨all_valid_take_filter .., all_valid_take_filter ..⟩

theorem C1_witness :
    c1WitInfo.videos.all video_url_valid = true ∧
    c1WitInfo.raw.video_candidates.all video_url_valid = true :=
  C1_final_filter_after_dynamic c1WitFetch cexDynFail c1WitSrc c1WitSeed c1WitInfo
    (by rfl) (by decide) (by rfl)

/-- C2: the claimed invariant includes that `images` and `videos` hold only
absolute, scheme-qualified URLs; but `parse_static` admits meta-tag content
without any scheme check, so a page with `og:image` content `"notaurl"`
yields it as an image entry. -/
theorem C2_counterexample :
    (match parse_static c2CexFetch (("https://c2.example/p")) with
     | .ok i => i.images
     | .error _ => []) = [("notaurl")] ∧
    strStarts (("notaurl")) ("http") = false ∧
    (urlparse (("notaurl"))).scheme = ("") := by decide

/-- C2 (amended): the caps (6 images, 3 videos) and uniqueness after path
normalization hold for every `ProductInfo` produced by `parse_static`,
`parse_dynamic_with_playwright`, `merge_info` and `parse_product_info`, for
any input size; the absolute-URL part of the claim fails (meta-derived
entries are not scheme-checked). -/
theorem C2_caps_and_dedup :
    (∀ (fetch : String → Except String (Page × String)) (u : String),
      media_caps_okE (parse_static fetch u)) ∧
    (∀ (src : String) (cap : DynCapture),
      media_caps_ok (parse_dynamic_with_playwright src cap)) ∧
    (∀ (base incoming : ProductInfo) (lbl : String),
      media_caps_ok (merge_info base incoming lbl)) ∧
    (∀ (fetch : String → Except String (Page × String))
      (dyn : String → Except String DynCapture) (src : String),
      media_caps_okE (parse_product_info fetch dyn src)) := by
  refine ⟨?_, ?_, ?_, ?_⟩
  · intro fetch u
    cases hp : parse_static fetch u with
    | ok i => exact parse_static_caps hp
    | error e => trivial
  · intro src cap
    exact parse_dynamic_caps src cap
  · intro base incoming lbl
    exact merge_info_caps base incoming lbl
  · intro fetch dyn src
    cases hp : parse_product_info fetch dyn src with
    | ok i => exact parse_product_info_caps hp
    | error e => trivial

/-- C3: the claim asserts `merge_info` overwrites `title` only with a
non-empty, non-placeholder value; but the guard (app.py:578) only requires
the incoming title to be truthy, so an incoming placeholder overwrites an
empty base title. -/
theorem C3_counterexample :
    (merge_info { source_url := ("https://s.example") }
      { source_url := ("https://s.example"), title := ("拼多多商城") } (("dyn_0"))).title =
      ("拼多多商城") ∧
    ({ source_url := ("https://s.example") } : ProductInfo).title ≠ ("拼多多商城") := by
  constructor
  · rfl
  · decide

/-- C3 (amended): whenever `merge_info` changes `base.title`, the new value
is `incoming.title` and it is non-empty; it may however equal the generic
placeholder (when the base title was empty). -/
theorem C3_title_overwrite (base incoming : ProductInfo) (lbl : String)
    (h : (merge_info base incoming lbl).title ≠ base.title) :
    (merge_info base incoming lbl).title = incoming.title ∧ incoming.title ≠ ("") := by
  by_cases hc : incoming.title ≠ ("") ∧ (base.title = ("") ∨ base.title = ("拼多多商城"))
  · constructor
    · unfold merge_info
      simp [hc]
    · exact hc.1
  · exfalso
    apply h
    unfold merge_info
    simp [hc]

theorem C3_witness :
    (merge_info { source_url := ("https://s.example") }
      { source_url := ("https://s.example"), title := ("Real Title") } (("dyn_0"))).title =
      ({ source_url := ("https://s.example"), title := ("Real Title") } : ProductInfo).title ∧
    ({ source_url := ("https://s.example"), title := ("Real Title") } : ProductInfo).title ≠
      ("") :=
  C3_title_overwrite { source_url := ("https://s.example") }
    { source_url := ("https://s.example"), title := ("Real Title") } (("dyn_0")) (by decide)

/-- C4: the claim asserts `normalize_url` returns the trimmed input
unchanged when no URL-like token is found; but for non-empty scheme-less
text the code prepends `https://`. -/
theorem C4_counterexample :
    searchHttpToken (pyStrip (("hello"))).data = none ∧
    normalize_url (("hello")) = ("https://hello") ∧ ("https://hello") ≠ ("hello") := by
  refine ⟨by decide, by decide, by decide⟩

/-- C4 (amended): when the URL-token search finds nothing, `normalize_url`
returns `""` for blank input, the trimmed input unchanged when it carries a
scheme-like prefix, and otherwise the trimmed input with `https://`
prepended. -/
theorem C4_soft_fail (s : String) (h : searchHttpToken (pyStrip s).data = none) :
    normalize_url s =
      (if pyStrip s = ("") then ("")
       else if (urlparse (pyStrip s)).scheme = ("") then ("https://") ++ pyStrip s
       else pyStrip s) := by
  unfold normalize_url extract_url
  rw [h]

theorem C4_witness : normalize_url (("hello world")) = ("https://hello world") := by
  rw [C4_soft_fail (("hello world")) (by decide)]
  decide

/-- C5: the claim asserts that for the share text
`"看看这个 https://mobile.yangkeduo.com/xyz.html?goods_id=42 ，"` the
canonicalizer extracts id `42` and maps the URL to the fixed-template goods
URL; but `extract_goods_id` only accepts ids of five or more digits
(`\d{5,}`), so no id is extracted and the URL is left unchanged. -/
theorem C5_counterexample :
    extract_goods_id (normalize_url
      (("看看这个 https://mobile.yangkeduo.com/xyz.html?goods_id=42 ，"))) = ("") ∧
    canonicalize_pdd_goods_url (normalize_url
      (("看看这个 https://mobile.yangkeduo.com/xyz.html?goods_id=42 ，"))) =
      ("https://mobile.yangkeduo.com/xyz.html?goods_id=42") ∧
    ("https://mobile.yangkeduo.com/xyz.html?goods_id=42") ≠
      ("https://mobile.yangkeduo.com/goods.html?goods_id=42") := by
  refine ⟨by decide, by decide, by decide⟩

/-- C5 (amended): the URL token is extracted from the share text (trailing
punctuation handling included), but a two-digit `goods_id=42` yields no
product id (five digits are required) and the URL is canonicalized to
itself; with a five-plus-digit id the same share text maps to the
fixed-template goods URL. -/
theorem C5_share_text_canonicalization :
    normalize_url (("看看这个 https://mobile.yangkeduo.com/xyz.html?goods_id=42 ，")) =
      ("https://mobile.yangkeduo.com/xyz.html?goods_id=42") ∧
    extract_goods_id (("https://mobile.yangkeduo.com/xyz.html?goods_id=42")) = ("") ∧
    canonicalize_pdd_goods_url (("https://mobile.yangkeduo.com/xyz.html?goods_id=42")) =
      ("https://mobile.yangkeduo.com/xyz.html?goods_id=42") ∧
    canonicalize_pdd_goods_url (normalize_url
      (("看看这个 https://mobile.yangkeduo.com/xyz.html?goods_id=4200042 ，"))) =
      ("https://mobile.yangkeduo.com/goods.html?goods_id=4200042") := by
  refine ⟨by decide, by decide, by decide, by decide⟩

/-- C6: `parse_product_info` raises exactly when every static attempt over
the candidate URLs fails, and the raised message aggregates every attempted
URL with its failure reason; one static success suffices for the call to
return a result. -/
theorem C6_static_error_aggregation
    (fetch : String → Except String (Page × String))
    (dyn : String → Except String DynCapture) (src : String) :
    ((∀ u ∈ candidate_urls src, fetchFailed fetch u = true) →
      parse_product_info fetch dyn src = .error
        (("静态抓取全部失败: ") ++ String.intercalate (" | ")
          ((candidate_urls src).map (fun u => u ++ (" -> ") ++ fetchErr fetch u)))) ∧
    ((∃ u, u ∈ candidate_urls src ∧ fetchFailed fetch u = false) →
      ∃ info, parse_product_info fetch dyn src = .ok info) := by
  constructor
  · intro hall
    have hs : static_seed fetch src = .error
        (("静态抓取全部失败: ") ++ String.intercalate (" | ")
          ((candidate_urls src).map (fun u => u ++ (" -> ") ++ fetchErr fetch u))) := by
      simp only [static_seed]
      rw [run_static_attempts_all_fail fetch _ hall]
    unfold parse_product_info
    rw [hs]
  · rintro ⟨u, hmem, hok⟩
    have hne := run_static_attempts_success hmem hok
    unfold parse_product_info
    simp only [static_seed]
    cases hr : (run_static_attempts fetch (candidate_urls src)).1 with
    | nil => exact absurd hr hne
    | cons b rest =>
      simp only []
      split
      · exact ⟨_, rfl⟩
      · exact ⟨_, rfl⟩

theorem C6_witness :
    parse_product_info c6FailFetch cexDynFail c6Src = .error
      (("静态抓取全部失败: ") ++ String.intercalate (" | ")
        ((candidate_urls c6Src).map (fun u => u ++ (" -> ") ++ fetchErr c6FailFetch u))) ∧
    (∃ info, parse_product_info c6OkFetch cexDynFail c6Src = .ok info) :=
  ⟨(C6_static_error_aggregation c6FailFetch cexDynFail c6Src).1 (by decide),
   (C6_static_error_aggregation c6OkFetch cexDynFail c6Src).2 ⟨c6Src, by decide, by decide⟩⟩

set_option maxRecDepth 4000 in
/-- C8: the claim bounds the number of response bodies read per call by 80;
but the guard (app.py:424) counts captured URLs, not reads: a body that
passes the keyword gate yet contains no extractable URL never advances the
counter, so 81 such responses make 81 body reads. -/
theorem C8_counterexample :
    (run_listener (List.replicate 81 c8Resp)).reads = 81 ∧ ¬ (81 ≤ 80) := by
  refine ⟨by decide, by decide⟩

/-- C8 (amended): bodies are read only while fewer than 80 URLs have been
captured, so at most 80 reads are productive (extract at least one URL);
the total number of reads is not bounded by 80. -/
theorem C8_productive_reads_bounded (responses : List PwResponse) :
    (run_listener responses).productive_reads ≤ 80 :=
  (run_listener_inv responses).2

/-- C9: `classify_media_urls` classifies each candidate into at most one
category: no URL string appears in both returned lists. -/
theorem C9_classify_disjoint (cands : List String) (u : String)
    (h : u ∈ (classify_media_urls cands).1) : u ∉ (classify_media_urls cands).2 := by
  intro hv
  unfold classify_media_urls at h hv
  obtain ⟨r1, _, hr1⟩ := List.mem_filterMap.mp (mem_uniq_by_path h)
  obtain ⟨r2, _, hr2⟩ := List.mem_filterMap.mp (mem_uniq_by_path hv)
  cases hc1 : classify_candidate r1 with
  | skip => rw [hc1] at hr1; simp at hr1
  | vid v => rw [hc1] at hr1; simp at hr1
  | img v =>
    rw [hc1] at hr1
    simp only [Option.some.injEq] at hr1
    subst hr1
    cases hc2 : classify_candidate r2 with
    | skip => rw [hc2] at hr2; simp at hr2
    | img w => rw [hc2] at hr2; simp at hr2
    | vid w =>
      rw [hc2] at hr2
      simp only [Option.some.injEq] at hr2
      subst hr2
      unfold classify_candidate at hc1 hc2
      have e1 := classify_url_img_eq hc1
      have e2 := classify_url_vid_eq hc2
      rw [← e1] at hc1
      rw [← e2] at hc2
      rw [hc1] at hc2
      exact absurd hc2 (by simp)

theorem C9_witness : ("https://a.example/x.jpg") ∉ (classify_media_urls c9Cands).2 :=
  C9_classify_disjoint c9Cands ("https://a.example/x.jpg") (by decide)

/-- C10: `merge_info` never modifies `source_url`; `final_url` keeps the
base value exactly when the incoming one is empty; and every raw diagnostic
field other than `video_candidates`, `image_candidates` and `merge_from` is
unchanged. -/
theorem C10_merge_frame (base incoming : ProductInfo) (lbl : String) :
    (merge_info base incoming lbl).source_url = base.source_url ∧
    (merge_info base incoming lbl).final_url =
      (if incoming.final_url = ("") then base.final_url else incoming.final_url) ∧
    (merge_info base incoming lbl).raw.html_length = base.raw.html_length ∧
    (merge_info base incoming lbl).raw.method = base.raw.method ∧
    (merge_info base incoming lbl).raw.network_urls_count = base.raw.network_urls_count ∧
    (merge_info base incoming lbl).raw.json_video_candidates =
      base.raw.json_video_candidates ∧
    (merge_info base incoming lbl).raw.canonical_url = base.raw.canonical_url ∧
    (merge_info base incoming lbl).raw.attempted_urls = base.raw.attempted_urls ∧
    (merge_info base incoming lbl).raw.needs_login = base.raw.needs_login ∧
    (merge_info base incoming lbl).raw.static_errors = base.raw.static_errors ∧
    (merge_info base incoming lbl).raw.dynamic_attempts = base.raw.dynamic_attempts ∧
    (merge_info base incoming lbl).raw.fallback = base.raw.fallback := by
  refine ⟨rfl, ?_, rfl, rfl, rfl, rfl, rfl, rfl, rfl, rfl, rfl, rfl⟩
  unfold merge_info
  by_cases hf : incoming.final_url = ("")
  · simp [hf]
  · simp [hf]

/-! ## Helper lemmas for idempotent canonicalization (C7) -/

/-- Two characters cannot be equal when exactly one is a digit. -/
theorem digit_ne {a b : Char} (h : a.isDigit = true) (hb : b.isDigit = false) : a ≠ b :=
  fun e => by subst e; rw [h] at hb; cases hb

theorem digits_not_mem {l : List Char} (hd : ∀ c ∈ l, c.isDigit = true) {a : Char}
    (ha : a.isDigit = false) : a ∉ l :=
  fun hm => by have := hd a hm; rw [this] at ha; cases ha

theorem splitAtFirstL_not_mem {c : Char} : ∀ {l : List Char}, c ∉ l →
    splitAtFirstL c l = (l, none) := by
  intro l
  induction l with
  | nil => intro _; rfl
  | cons a rest ih =>
    intro h
    have hne : a ≠ c := fun e => h (e ▸ List.mem_cons_self a rest)
    simp only [splitAtFirstL, if_neg hne, ih (fun hm => h (List.mem_cons_of_mem a hm))]

theorem splitAtFirstL_append {c : Char} : ∀ {l1 : List Char}, c ∉ l1 → ∀ (l2 : List Char),
    splitAtFirstL c (l1 ++ c :: l2) = (l1, some l2) := by
  intro l1
  induction l1 with
  | nil => intro _ l2; simp [splitAtFirstL]
  | cons a rest ih =>
    intro h l2
    have hne : a ≠ c := fun e => h (e ▸ List.mem_cons_self a rest)
    simp only [List.cons_append, splitAtFirstL, if_neg hne, List.append_eq,
      ih (fun hm => h (List.mem_cons_of_mem a hm)) l2]

theorem takeWhile_append_mid {p : Char → Bool} {b : Char} (hb : p b = false) :
    ∀ {l1 : List Char}, (∀ a ∈ l1, p a = true) → ∀ (l2 : List Char),
      (l1 ++ b :: l2).takeWhile p = l1 ∧ (l1 ++ b :: l2).dropWhile p = b :: l2 := by
  intro l1
  induction l1 with
  | nil => intro _ l2; simp [List.takeWhile, List.dropWhile, hb]
  | cons a rest ih =>
    intro h l2
    have ha := h a (List.mem_cons_self a rest)
    have hr := ih (fun x hx => h x (List.mem_cons_of_mem a hx)) l2
    constructor
    · simp only [List.cons_append, List.takeWhile, ha, List.append_eq, hr.1]
    · simp only [List.cons_append, List.dropWhile, ha, List.append_eq, hr.2]

theorem digit_not_unsafe {a : Char} (h : a.isDigit = true) :
    (!(a = '\t' || a = '\r' || a = '\n')) = true := by
  have h1 : a ≠ '\t' := digit_ne h (by decide)
  have h2 : a ≠ '\r' := digit_ne h (by decide)
  have h3 : a ≠ '\n' := digit_ne h (by decide)
  simp [h1, h2, h3]

theorem stripUnsafe_append (l1 l2 : List Char) :
    stripUnsafe (l1 ++ l2) = stripUnsafe l1 ++ stripUnsafe l2 :=
  List.filter_append ..

theorem stripUnsafe_digits {l : List Char} (hd : ∀ c ∈ l, c.isDigit = true) :
    stripUnsafe l = l :=
  List.filter_eq_self.mpr (fun a ha => digit_not_unsafe (hd a ha))

theorem stripUnsafe_template {g : String} (hd : ∀ c ∈ g.data, c.isDigit = true) :
    stripUnsafe ((("https://mobile.yangkeduo.com/goods.html?goods_id=") ++ g).data) =
      (("https://mobile.yangkeduo.com/goods.html?goods_id=").data) ++ g.data := by
  rw [String.data_append, stripUnsafe_append, stripUnsafe_digits hd]
  rw [show stripUnsafe (("https://mobile.yangkeduo.com/goods.html?goods_id=").data) =
    (("https://mobile.yangkeduo.com/goods.html?goods_id=").data) from by decide]

theorem splitScheme_template (g : String) :
    splitScheme ((("https://mobile.yangkeduo.com/goods.html?goods_id=").data) ++ g.data) =
      (("https"), (("//mobile.yangkeduo.com/goods.html?goods_id=").data) ++ g.data) := by
  have hdecomp : (("https://mobile.yangkeduo.com/goods.html?goods_id=").data) ++ g.data =
      (("https").data) ++
        ':' :: ((("//mobile.yangkeduo.com/goods.html?goods_id=").data) ++ g.data) := by
    rw [show (("https://mobile.yangkeduo.com/goods.html?goods_id=").data) =
      (("https").data) ++ ':' :: (("//mobile.yangkeduo.com/goods.html?goods_id=").data) from rfl]
    rw [List.append_assoc]
    rfl
  rw [hdecomp]
  unfold splitScheme
  rw [splitAtFirstL_append (by decide)]
  simp only []
  rw [if_pos (by decide)]
  simp only [Prod.mk.injEq]
  exact ⟨by decide, trivial⟩

theorem splitNetloc_template (g : String) :
    splitNetloc ((("//mobile.yangkeduo.com/goods.html?goods_id=").data) ++ g.data) =
      (("mobile.yangkeduo.com"), '/' :: ((("goods.html?goods_id=").data) ++ g.data)) := by
  have hdecomp : (("//mobile.yangkeduo.com/goods.html?goods_id=").data) ++ g.data =
      '/' :: '/' :: ((("mobile.yangkeduo.com").data) ++
        '/' :: ((("goods.html?goods_id=").data) ++ g.data)) := by
    rw [show (("//mobile.yangkeduo.com/goods.html?goods_id=").data) =
      '/' :: '/' :: ((("mobile.yangkeduo.com").data) ++
        '/' :: (("goods.html?goods_id=").data)) from rfl]
    simp [List.append_assoc]
  rw [hdecomp]
  unfold splitNetloc
  rw [if_pos (by simp [List.isPrefixOf])]
  simp only [List.drop_succ_cons, List.drop_zero]
  have hk := @takeWhile_append_mid (fun c => !netlocEnd c) '/' (by decide)
    (("mobile.yangkeduo.com").data) (by decide) ((("goods.html?goods_id=").data) ++ g.data)
  rw [hk.1, hk.2]
  simp only [Prod.mk.injEq]
  exact ⟨rfl, trivial⟩

theorem urlparse_template_query {g : String} (hd : ∀ c ∈ g.data, c.isDigit = true) :
    (urlparse (("https://mobile.yangkeduo.com/goods.html?goods_id=") ++ g)).query =
      ofChars ((("goods_id=").data) ++ g.data) := by
  simp only [urlparse]
  rw [stripUnsafe_template hd]
  rw [splitScheme_template g]
  simp only []
  rw [splitNetloc_template g]
  simp only []
  have hfrag : splitAtFirstL '#' ('/' :: ((("goods.html?goods_id=").data) ++ g.data)) =
      ('/' :: ((("goods.html?goods_id=").data) ++ g.data), none) := by
    apply splitAtFirstL_not_mem
    intro hm
    rcases List.mem_cons.mp hm with h1 | h2
    · cases h1
    · rcases List.mem_append.mp h2 with h3 | h4
      · revert h3; decide
      · exact digits_not_mem hd (by decide) h4
  rw [hfrag]
  simp only []
  have hdecomp : '/' :: ((("goods.html?goods_id=").data) ++ g.data) =
      ('/' :: (("goods.html").data)) ++ '?' :: ((("goods_id=").data) ++ g.data) := by
    rw [show (("goods.html?goods_id=").data) =
      (("goods.html").data) ++ '?' :: (("goods_id=").data) from rfl]
    simp [List.append_assoc]
  rw [hdecomp, splitAtFirstL_append (by decide)]
  rfl

theorem splitAllFuel_not_mem {c : Char} {l : List Char} (h : c ∉ l) :
    ∀ n, splitAllFuel c n l = [l] := by
  intro n
  cases n with
  | zero => rfl
  | succ m =>
    simp only [splitAllFuel, splitAtFirstL_not_mem h]

theorem unqFuel_digits : ∀ (n : Nat) {l : List Char}, (∀ c ∈ l, c.isDigit = true) →
    unqFuel n l = l := by
  intro n
  induction n with
  | zero => intro l _; rfl
  | succ m ih =>
    intro l hd
    cases l with
    | nil => rfl
    | cons c rest =>
      have hc := hd c (List.mem_cons_self ..)
      have h1 : c ≠ '+' := digit_ne hc (by decide)
      have h2 : c ≠ '%' := digit_ne hc (by decide)
      simp only [unqFuel, if_neg h1, if_neg h2,
        ih (fun x hx => hd x (List.mem_cons_of_mem c hx))]

theorem parse_qsl_goods_id {g : String} (hd : ∀ c ∈ g.data, c.isDigit = true)
    (hne : g.data ≠ []) :
    parse_qsl (ofChars ((("goods_id=").data) ++ g.data)) = [(("goods_id"), g)] := by
  unfold parse_qsl splitAllL
  have hamp : '&' ∉ (("goods_id=").data) ++ g.data := by
    intro hm
    rcases List.mem_append.mp hm with h1 | h2
    · revert h1; decide
    · exact digits_not_mem hd (by decide) h2
  rw [show (ofChars ((("goods_id=").data) ++ g.data)).data =
    (("goods_id=").data) ++ g.data from rfl]
  rw [splitAllFuel_not_mem hamp]
  simp only [List.filterMap]
  rw [show (("goods_id=").data) ++ g.data =
    (("goods_id").data) ++ '=' :: g.data from by
      rw [show (("goods_id=").data) = (("goods_id").data) ++ ['='] from rfl]
      simp]
  rw [show ((("goods_id").data) ++ '=' :: g.data).isEmpty = false from by
    simp [List.isEmpty]]
  simp only [Bool.false_eq_true, if_false]
  rw [splitAtFirstL_append (by decide)]
  simp only []
  rw [show g.data.isEmpty = false from by
    cases hg : g.data with
    | nil => exact absurd hg hne
    | cons a r => rfl]
  simp only [Bool.false_eq_true, if_false]
  unfold unquote_plus unqChars
  rw [show (ofChars (("goods_id").data)).data = (("goods_id").data) from rfl]
  rw [show (ofChars g.data).data = g.data from rfl]
  rw [unqFuel_digits _ hd]
  rw [show unqFuel (("goods_id").data).length (("goods_id").data) =
    (("goods_id").data) from by decide]
  rfl

theorem searchDigits5_all {l : List Char} (hd : ∀ c ∈ l, c.isDigit = true)
    (hl : 5 ≤ l.length) : searchDigits5 l = some (ofChars l) := by
  cases l with
  | nil => simp at hl
  | cons c rest =>
    have htake : (c :: rest).takeWhile Char.isDigit = c :: rest :=
      List.takeWhile_eq_self_iff.mpr hd
    unfold searchDigits5
    simp only [htake]
    rw [if_pos hl]

theorem searchDigits5_facts : ∀ {l : List Char} {d : String}, searchDigits5 l = some d →
    (∀ c ∈ d.data, c.isDigit = true) ∧ 5 ≤ d.data.length := by
  intro l
  induction l with
  | nil => intro d h; simp [searchDigits5] at h
  | cons c rest ih =>
    intro d h
    simp only [searchDigits5] at h
    split at h
    · rename_i hlen
      cases h
      constructor
      · intro x hx
        exact List.mem_takeWhile_imp hx
      · exact hlen
    · exact ih h

theorem searchLitDigits_facts (lit : String) : ∀ {l : List Char} {d : String},
    searchLitDigits lit l = some d →
      (∀ c ∈ d.data, c.isDigit = true) ∧ 5 ≤ d.data.length := by
  intro l
  induction l with
  | nil => intro d h; simp [searchLitDigits] at h
  | cons c rest ih =>
    intro d h
    simp only [searchLitDigits] at h
    split at h
    · split at h
      · rename_i hlen
        cases h
        constructor
        · intro x hx
          exact List.mem_takeWhile_imp hx
        · exact hlen
      · exact ih h
    · exact ih h

theorem tryQueryKeys_facts {pairs : List (String × String)} : ∀ {keys : List String}
    {d : String}, tryQueryKeys pairs keys = some d →
      (∀ c ∈ d.data, c.isDigit = true) ∧ 5 ≤ d.data.length := by
  intro keys
  induction keys with
  | nil => intro d h; simp [tryQueryKeys] at h
  | cons k ks ih =>
    intro d h
    unfold tryQueryKeys at h
    cases hq : qsFirst pairs k with
    | none => rw [hq] at h; exact ih h
    | some v =>
      rw [hq] at h
      simp only [] at h
      cases hs : searchDigits5 v.data with
      | none => rw [hs] at h; exact ih h
      | some d2 =>
        rw [hs] at h
        cases h
        exact searchDigits5_facts hs

theorem extract_goods_id_facts {u d : String} (h : extract_goods_id u = d)
    (hne : d ≠ ("")) : (∀ c ∈ d.data, c.isDigit = true) ∧ 5 ≤ d.data.length := by
  simp only [extract_goods_id] at h
  cases h1 : tryQueryKeys (parse_qsl (urlparse u).query)
      [("goods_id"), ("goodsId"), ("gid")] with
  | some d1 =>
    rw [h1] at h
    cases h
    exact tryQueryKeys_facts h1
  | none =>
    rw [h1] at h
    cases h2 : searchLitDigits ("goods_id=") u.data with
    | some d2 =>
      rw [h2] at h
      cases h
      exact searchLitDigits_facts _ h2
    | none =>
      rw [h2] at h
      cases h3 : searchLitDigits ("/goods/") u.data with
      | some d3 =>
        rw [h3] at h
        cases h
        exact searchLitDigits_facts _ h3
      | none =>
        rw [h3] at h
        cases h4 : searchLitDigits ("goods/") u.data with
        | some d4 =>
          rw [h4] at h
          cases h
          exact searchLitDigits_facts _ h4
        | none =>
          rw [h4] at h
          exact absurd h.symm hne

theorem extract_goods_id_template {g : String} (hd : ∀ c ∈ g.data, c.isDigit = true)
    (hl : 5 ≤ g.data.length) :
    extract_goods_id (("https://mobile.yangkeduo.com/goods.html?goods_id=") ++ g) = g := by
  have hne : g.data ≠ [] := by
    intro he
    rw [he] at hl
    simp at hl
  simp only [extract_goods_id]
  rw [urlparse_template_query hd, parse_qsl_goods_id hd hne]
  have hq : tryQueryKeys [(("goods_id"), g)] [("goods_id"), ("goodsId"), ("gid")] = some g := by
    unfold tryQueryKeys
    rw [show qsFirst [(("goods_id"), g)] ("goods_id") = some g from by
      unfold qsFirst
      simp]
    simp only []
    rw [searchDigits5_all hd hl]
    rfl
  rw [hq]

/-- C7: canonicalization is idempotent — when a product id is extractable
from `u`, canonicalizing twice equals canonicalizing once. The extracted id
is a five-plus digit string, and the fixed-template URL built from such an
id yields back exactly that id. -/
theorem C7_canonicalize_idempotent (u : String) (h : extract_goods_id u ≠ ("")) :
    canonicalize_pdd_goods_url (canonicalize_pdd_goods_url u) =
      canonicalize_pdd_goods_url u := by
  have hg := extract_goods_id_facts (rfl : extract_goods_id u = extract_goods_id u) h
  have hmain := extract_goods_id_template hg.1 hg.2
  simp only [canonicalize_pdd_goods_url]
  rw [if_neg h, hmain, if_neg h]

theorem C7_witness :
    extract_goods_id (("https://mobile.yangkeduo.com/goods.html?goods_id=123456789")) ≠
      ("") ∧
    canonicalize_pdd_goods_url (canonicalize_pdd_goods_url
      (("https://mobile.yangkeduo.com/goods.html?goods_id=123456789"))) =
      canonicalize_pdd_goods_url
        (("https://mobile.yangkeduo.com/goods.html?goods_id=123456789")) :=
  ⟨by decide, C7_canonicalize_idempotent
    (("https://mobile.yangkeduo.com/goods.html?goods_id=123456789")) (by decide)⟩
